import Mathlib

/-!
# Token Price Oracle — verification of the specification against the source

Shallow embedding of the core of the Token-Price-Oracle backend
(`src/backend/src/...` and the unnamed service/middleware/worker files) in
Lean 4, together with theorems settling the frozen claims about the
natural-language specification.

Conventions of the embedding:
* JavaScript numbers are modelled as exact rationals (`ℚ`); unix timestamps
  and millisecond epochs as integers (`ℤ`, or `ℕ` for day grids).
* Asynchronous database / HTTP effects are modelled by passing the relevant
  state or outcome explicitly: the MongoDB layer is a connection flag plus a
  list of stored rows, the HTTP layer is an explicit `HttpOutcome`, and the
  write-through insert receives the store's reaction as an `InsertOutcome`.
* Fallible operations return `Option` / `Except` values; a thrown JS
  exception that a caller catches is modelled by the corresponding
  `Except.error` branch being mapped to the caught value.
-/

namespace Oracle

/-- JS `Math.round(x * 100) / 100` — round to two decimal places
(`Math.round` rounds half towards positive infinity, i.e. `⌊x + 1/2⌋`). -/
def round2 (x : ℚ) : ℚ := (⌊x * 100 + 1 / 2⌋ : ℤ) / 100

/-- JS `Math.max` on rationals, written with an `if` so that the kernel can
evaluate it (the lattice `max` of Mathlib does not reduce). -/
def ratMax (a b : ℚ) : ℚ := if a ≤ b then b else a

/-- JS `Math.min` on rationals. -/
def ratMin (a b : ℚ) : ℚ := if a ≤ b then a else b

/-- JS `Math.abs` on rationals. -/
def ratAbs (a : ℚ) : ℚ := if a < 0 then -a else a

/-- JS `toUpperCase()`, written on the character list so that the kernel
can evaluate it (`String.toUpper` itself is opaque to the kernel). -/
def strUpper (s : String) : String := ⟨s.data.map Char.toUpper⟩

/-- JS `toLowerCase()`, written on the character list so that the kernel
can evaluate it. -/
def strLower (s : String) : String := ⟨s.data.map Char.toLower⟩

/-! ## Interpolation engine (`src/backend/src/services/interpolation.ts`) -/

/-- The fields of a stored price document that the interpolation engine
reads (`beforePrice.timestamp` / `beforePrice.price`). -/
structure PricePoint where
  timestamp : ℤ
  price : ℚ
  deriving DecidableEq, Repr

/-- One side of `InterpolationResult.dataPoints`. -/
structure InterpolationDataPoint where
  timestamp : ℤ
  price : ℚ
  timeDiff : ℤ
  deriving DecidableEq, Repr

/-- `InterpolationResult` from `interpolation.ts` (the `source` field is the
constant string `'interpolated'` and is therefore not carried). -/
structure InterpolationResult where
  price : ℚ
  confidence : ℚ
  before : InterpolationDataPoint
  after : InterpolationDataPoint
  deriving DecidableEq, Repr

/-- `calculateInterpolationConfidence` (interpolation.ts lines 127–158)
over total-division rationals (`x / 0 = 0`): a weighted sum of a time-gap
factor, a price-stability factor and a position factor, clamped into
`[0, 1]`.  The total-division convention coincides with the JS float
semantics only away from the division-by-zero paths — i.e. when
`beforePrice ≠ 0` and `max(beforeGap, afterGap) ≠ 0`, as is the case in
every scenario below that uses this definition; the faithful
special-value translation of the same source lines is
`jsInterpolationConfidence`, against which the confidence-range claim is
settled. -/
def calculateInterpolationConfidence (queryTs beforeTs afterTs : ℤ)
    (beforePrice afterPrice : ℚ) : ℚ :=
  let totalGap : ℚ := ((afterTs - beforeTs : ℤ) : ℚ)
  let maxAcceptableGap : ℚ := 7 * 24 * 60 * 60
  let timeConfidence := ratMax 0 (1 - totalGap / maxAcceptableGap)
  let priceChange := ratAbs (afterPrice - beforePrice) / beforePrice
  let maxAcceptableChange : ℚ := 0.5
  let stabilityConfidence := ratMax 0 (1 - priceChange / maxAcceptableChange)
  let beforeGap : ℚ := ((queryTs - beforeTs : ℤ) : ℚ)
  let afterGap : ℚ := ((afterTs - queryTs : ℤ) : ℚ)
  let positionConfidence := ratMin beforeGap afterGap / ratMax beforeGap afterGap
  let confidence := timeConfidence * 0.4 + stabilityConfidence * 0.4 + positionConfidence * 0.2
  ratMin 1 (ratMax 0 confidence)

/-- `interpolatePrice` (interpolation.ts lines 37–115), as a function of the
straddling pair returned by `mongoService.findClosestPrices`.  Returns `none`
when either side is absent or both sides share the same timestamp, otherwise
the linearly interpolated price (rounded to two decimals) together with the
confidence score and the data points. -/
def interpolatePrice (beforePrice afterPrice : Option PricePoint)
    (queryTimestamp : ℤ) : Option InterpolationResult :=
  match beforePrice, afterPrice with
  | none, none => none
  | none, some _ => none
  | some _, none => none
  | some b, some a =>
    let ts1 := b.timestamp
    let ts2 := a.timestamp
    let price1 := b.price
    let price2 := a.price
    if ts1 = ts2 then none
    else
      let ratio : ℚ := ((queryTimestamp - ts1 : ℤ) : ℚ) / ((ts2 - ts1 : ℤ) : ℚ)
      let interpolatedPrice := price1 + (price2 - price1) * ratio
      let confidence :=
        calculateInterpolationConfidence queryTimestamp ts1 ts2 price1 price2
      some
        { price := round2 interpolatedPrice
          confidence := confidence
          before := ⟨ts1, price1, queryTimestamp - ts1⟩
          after := ⟨ts2, price2, ts2 - queryTimestamp⟩ }

/-! ### The confidence computation over IEEE special values

JS numbers are doubles: dividing a positive number by `0` gives
`Infinity`, a negative one gives `-Infinity`, and `0 / 0` gives `NaN`;
`Math.min` and `Math.max` return `NaN` whenever an argument is `NaN`, and
so do sums and products with a `NaN` operand.
`calculateInterpolationConfidence` divides by `beforePrice` and by
`max(beforeGap, afterGap)`, both of which can be `0` (the price schema
admits `price: 0` via `min: 0`), so the computation is re-translated here
over a carrier that keeps those special values (finite doubles are still
idealised as exact rationals, and the only zero produced by the
computation's operands is `+0`). -/

/-- A JS number as the confidence computation sees it: a finite value, an
infinity, or `NaN`. -/
inductive JsNum where
  | finite (q : ℚ)
  | posInf
  | negInf
  | nan
  deriving DecidableEq, Repr

/-- JS `+` on doubles: `NaN` propagates, opposite infinities give `NaN`. -/
def JsNum.add : JsNum → JsNum → JsNum
  | .nan, _ => .nan
  | _, .nan => .nan
  | .posInf, .negInf => .nan
  | .negInf, .posInf => .nan
  | .posInf, _ => .posInf
  | _, .posInf => .posInf
  | .negInf, _ => .negInf
  | _, .negInf => .negInf
  | .finite a, .finite b => .finite (a + b)

/-- JS unary minus on doubles. -/
def JsNum.neg : JsNum → JsNum
  | .finite a => .finite (-a)
  | .posInf => .negInf
  | .negInf => .posInf
  | .nan => .nan

/-- JS `-` on doubles. -/
def JsNum.sub (a b : JsNum) : JsNum := a.add b.neg

/-- JS `*` on doubles: `NaN` propagates, `±Infinity · 0` is `NaN`. -/
def JsNum.mul : JsNum → JsNum → JsNum
  | .nan, _ => .nan
  | _, .nan => .nan
  | .finite a, .finite b => .finite (a * b)
  | .finite a, .posInf => if 0 < a then .posInf else if a < 0 then .negInf else .nan
  | .finite a, .negInf => if 0 < a then .negInf else if a < 0 then .posInf else .nan
  | .posInf, .finite b => if 0 < b then .posInf else if b < 0 then .negInf else .nan
  | .negInf, .finite b => if 0 < b then .negInf else if b < 0 then .posInf else .nan
  | .posInf, .posInf => .posInf
  | .posInf, .negInf => .negInf
  | .negInf, .posInf => .negInf
  | .negInf, .negInf => .posInf

/-- JS `/` on doubles: division by (positive) zero gives a signed infinity,
`0 / 0` gives `NaN`, `NaN` propagates, infinity over infinity is `NaN`. -/
def JsNum.div : JsNum → JsNum → JsNum
  | .nan, _ => .nan
  | _, .nan => .nan
  | .finite a, .finite b =>
    if b = 0 then (if 0 < a then .posInf else if a < 0 then .negInf else .nan)
    else .finite (a / b)
  | .finite _, .posInf => .finite 0
  | .finite _, .negInf => .finite 0
  | .posInf, .finite b => if 0 ≤ b then .posInf else .negInf
  | .negInf, .finite b => if 0 ≤ b then .negInf else .posInf
  | .posInf, .posInf => .nan
  | .posInf, .negInf => .nan
  | .negInf, .posInf => .nan
  | .negInf, .negInf => .nan

/-- JS `Math.abs` on doubles. -/
def JsNum.abs : JsNum → JsNum
  | .finite a => .finite (ratAbs a)
  | .posInf => .posInf
  | .negInf => .posInf
  | .nan => .nan

/-- JS `Math.max` on doubles: `NaN` wins, otherwise the larger value. -/
def JsNum.jsMax : JsNum → JsNum → JsNum
  | .nan, _ => .nan
  | _, .nan => .nan
  | .posInf, _ => .posInf
  | _, .posInf => .posInf
  | .negInf, b => b
  | a, .negInf => a
  | .finite a, .finite b => .finite (ratMax a b)

/-- JS `Math.min` on doubles: `NaN` wins, otherwise the smaller value. -/
def JsNum.jsMin : JsNum → JsNum → JsNum
  | .nan, _ => .nan
  | _, .nan => .nan
  | .negInf, _ => .negInf
  | _, .negInf => .negInf
  | .posInf, b => b
  | a, .posInf => a
  | .finite a, .finite b => .finite (ratMin a b)

/-- `calculateInterpolationConfidence` (interpolation.ts lines 127–158)
translated with the IEEE special-value semantics of JS doubles: the same
weighted sum of the time-gap, price-stability and position factors, with
the divisions by `beforePrice`, `maxAcceptableChange` and
`max(beforeGap, afterGap)` performed by `JsNum.div` and the clamp by
`Math.min(1, Math.max(0, ·))` on `JsNum`.  The timestamps and prices
supplied by the stored documents are finite. -/
def jsInterpolationConfidence (queryTs beforeTs afterTs : ℤ)
    (beforePrice afterPrice : ℚ) : JsNum :=
  let totalGap : JsNum := .finite ((afterTs - beforeTs : ℤ) : ℚ)
  let maxAcceptableGap : JsNum := .finite (7 * 24 * 60 * 60)
  let timeConfidence := JsNum.jsMax (.finite 0)
    (JsNum.sub (.finite 1) (totalGap.div maxAcceptableGap))
  let priceChange :=
    (JsNum.abs (JsNum.sub (.finite afterPrice) (.finite beforePrice))).div
      (.finite beforePrice)
  let maxAcceptableChange : JsNum := .finite 0.5
  let stabilityConfidence := JsNum.jsMax (.finite 0)
    (JsNum.sub (.finite 1) (priceChange.div maxAcceptableChange))
  let beforeGap : JsNum := .finite ((queryTs - beforeTs : ℤ) : ℚ)
  let afterGap : JsNum := .finite ((afterTs - queryTs : ℤ) : ℚ)
  let positionConfidence :=
    (JsNum.jsMin beforeGap afterGap).div (JsNum.jsMax beforeGap afterGap)
  let confidence :=
    ((timeConfidence.mul (.finite 0.4)).add
        (stabilityConfidence.mul (.finite 0.4))).add
      (positionConfidence.mul (.finite 0.2))
  JsNum.jsMin (.finite 1) (JsNum.jsMax (.finite 0) confidence)

/-! ## Durable price store (`MongoDBService`, second half of
`src/backend/src/services/interpolation.ts`, lines 227–487)

The MongoDB connection is modelled as a boolean `connected` flag plus the
list of stored documents.  A raw mongoose query against a disconnected
store rejects (buffered commands time out), which the `raw…` operations
model by `Except.error`; the service methods translate those rejections
exactly where the source guards with `isReady()` or a `try/catch`. -/

/-- A document of the `prices` collection (`IPriceDocument`). -/
structure StoredPrice where
  token : String
  network : String
  date : String
  timestamp : ℤ
  price : ℚ
  source : String
  deriving DecidableEq, Repr

/-- The state of the MongoDB service: connection flag and stored rows. -/
structure MongoState where
  connected : Bool
  prices : List StoredPrice
  deriving DecidableEq, Repr

/-- Error raised by a raw mongoose operation on a disconnected store. -/
inductive DbError where
  | notConnected
  deriving DecidableEq, Repr

/-- Does a stored row match the (normalised) token/network pair?  Mongoose
queries use `token.toUpperCase()` / `network.toLowerCase()`. -/
def matchesPair (p : StoredPrice) (token network : String) : Bool :=
  decide (p.token = strUpper token ∧ p.network = strLower network)

/-- Newest matching row with `timestamp ≤ ts`
(`findOne({timestamp: {$lte}}).sort({timestamp: -1})`). -/
def newestBefore (rows : List StoredPrice) (token network : String) (ts : ℤ) :
    Option StoredPrice :=
  (rows.filter fun p => matchesPair p token network && decide (p.timestamp ≤ ts)).foldl
    (fun acc p =>
      match acc with
      | none => some p
      | some q => if q.timestamp < p.timestamp then some p else some q)
    none

/-- Oldest matching row with `timestamp ≥ ts`
(`findOne({timestamp: {$gte}}).sort({timestamp: 1})`). -/
def oldestAfter (rows : List StoredPrice) (token network : String) (ts : ℤ) :
    Option StoredPrice :=
  (rows.filter fun p => matchesPair p token network && decide (ts ≤ p.timestamp)).foldl
    (fun acc p =>
      match acc with
      | none => some p
      | some q => if p.timestamp < q.timestamp then some p else some q)
    none

/-- Raw `Price.findOne` by exact `(token, network, timestamp)`. -/
def rawFindOne (st : MongoState) (token network : String) (ts : ℤ) :
    Except DbError (Option StoredPrice) :=
  if st.connected then
    .ok ((st.prices.filter fun p =>
      matchesPair p token network && decide (p.timestamp = ts)).head?)
  else .error .notConnected

/-- Raw `Price.findClosestPrices` static (both straddling queries). -/
def rawFindClosest (st : MongoState) (token network : String) (ts : ℤ) :
    Except DbError (Option StoredPrice × Option StoredPrice) :=
  if st.connected then
    .ok (newestBefore st.prices token network ts, oldestAfter st.prices token network ts)
  else .error .notConnected

/-- Raw `Price.find` over `timestamp ∈ [startTs, endTs]`, sorted ascending. -/
def rawFindRange (st : MongoState) (token network : String) (startTs endTs : ℤ) :
    Except DbError (List StoredPrice) :=
  if st.connected then
    .ok ((st.prices.filter fun p =>
        matchesPair p token network &&
          decide (startTs ≤ p.timestamp ∧ p.timestamp ≤ endTs)).mergeSort
      fun p q => decide (p.timestamp ≤ q.timestamp))
  else .error .notConnected

/-- `MongoDBService.findPriceByTimestamp` (interpolation.ts lines 392–409):
guarded by `isReady()` (returns `null` when disconnected) and by a
`try/catch` that returns `null` on a query error. -/
def findPriceByTimestamp (st : MongoState) (token network : String) (ts : ℤ) :
    Except DbError (Option StoredPrice) :=
  if !st.connected then .ok none
  else
    match rawFindOne st token network ts with
    | .ok v => .ok v
    | .error _ => .ok none

/-- `MongoDBService.findClosestPrices` (interpolation.ts lines 411–424):
guarded by `isReady()` (returns `[null, null]` when disconnected) and by a
`try/catch` returning `[null, null]` on a query error. -/
def findClosestPricesService (st : MongoState) (token network : String) (ts : ℤ) :
    Except DbError (Option StoredPrice × Option StoredPrice) :=
  if !st.connected then .ok (none, none)
  else
    match rawFindClosest st token network ts with
    | .ok v => .ok v
    | .error _ => .ok (none, none)

/-- `MongoDBService.getPriceHistory` (interpolation.ts lines 447–456):
unlike the two other read operations it has **no** `isReady()` guard and no
`try/catch`, so the raw query error propagates to the caller. -/
def getPriceHistory (st : MongoState) (token network : String) (startTs endTs : ℤ) :
    Except DbError (List StoredPrice) :=
  rawFindRange st token network startTs endTs

/-- `interpolatePrice` as invoked by the route: it obtains the straddling
pair from `mongoService.findClosestPrices` (interpolation.ts line 46); the
function's own `try/catch` turns a query error into `null`. -/
def interpolatePriceDb (st : MongoState) (token network : String) (ts : ℤ) :
    Option InterpolationResult :=
  match findClosestPricesService st token network ts with
  | .error _ => none
  | .ok (b, a) =>
    interpolatePrice (b.map fun p => ⟨p.timestamp, p.price⟩)
      (a.map fun p => ⟨p.timestamp, p.price⟩) ts

/-! ## Upstream adapter (`AlchemyService`, `src/unnamed/part_010`) -/

/-- Outcome of the single `axios.get` call to the market-data provider.
`success usd` is a 2xx response whose body has been reduced to the extracted
USD price field (`data[coinId]?.usd` on the simple-price endpoint,
`data.market_data?.current_price?.usd` on the history endpoint) — `none`
models a malformed payload or a missing / non-numeric price.  `httpError`
is a non-2xx status (axios rejects), `connError` a connection failure. -/
inductive HttpOutcome where
  | success (usd : Option ℚ)
  | httpError (status : ℕ)
  | connError
  deriving DecidableEq, Repr

/-- The symbol → CoinGecko-id map of `fetchRealTokenPrice`. -/
def tokenMap : List (String × String) :=
  [("BTC", "bitcoin"), ("ETH", "ethereum"), ("USDC", "usd-coin"),
   ("USDT", "tether"), ("MATIC", "matic-network"), ("LINK", "chainlink"),
   ("UNI", "uniswap"), ("AAVE", "aave"),
   ("COMP", "compound-governance-token"), ("MKR", "maker")]

/-- The supported-network map of the `AlchemyService` constructor. -/
def networkMap : List (String × String) :=
  [("ethereum", "ETH_MAINNET"), ("polygon", "MATIC_MAINNET"),
   ("arbitrum", "ARB_MAINNET"), ("optimism", "OPT_MAINNET"),
   ("base", "BASE_MAINNET")]

/-- The 24-hour policy threshold: `hoursDiff <= 24` selects the current-price
endpoint, otherwise the historical endpoint is queried (part_010 lines
130–144).  `hoursDiff` is `(now − requestTime)` in milliseconds divided by
`3 600 000` as a real number, so the comparison is exact on integers. -/
def usesCurrentPriceEndpoint (nowMs requestMs : ℤ) : Bool :=
  decide (nowMs - requestMs ≤ 24 * 60 * 60 * 1000)

/-- `fetchRealTokenPrice` (part_010 lines 108–180).  Unmapped tokens return
`null`; the endpoint selection (`usesCurrentPriceEndpoint`) only changes
which URL is queried and which body field is read, both abstracted into
`HttpOutcome.success`; any axios rejection (non-2xx status or connection
error) is swallowed by the surrounding `try/catch`, which returns `null`;
an invalid extracted price returns `null`; a valid price is rounded to two
decimals. -/
def fetchRealTokenPrice (token : String) (nowMs requestMs : ℤ)
    (outcome : HttpOutcome) : Option ℚ :=
  match tokenMap.lookup (strUpper token) with
  | none => none
  | some _ =>
    match outcome with
    | .success none => none
    | .success (some p) => some (round2 p)
    | .httpError _ => none
    | .connError => none

/-- The value resolved by `getTokenPrice` (`AlchemyPriceData`). -/
structure AlchemyPriceData where
  price : ℚ
  timestamp : String
  deriving DecidableEq, Repr

/-- `getTokenPrice` (part_010 lines 65–102): unsupported networks return
`null`, otherwise the result of `fetchRealTokenPrice` paired with the
request timestamp; the outer `try/catch` returns `null` on any error, so
the adapter never throws. -/
def getTokenPrice (token network timestampIso : String) (nowMs requestMs : ℤ)
    (outcome : HttpOutcome) : Option AlchemyPriceData :=
  match networkMap.lookup network with
  | none => none
  | some _ =>
    match fetchRealTokenPrice token nowMs requestMs outcome with
    | none => none
    | some p => some ⟨p, timestampIso⟩

/-! ## Price resolver route (`src/backend/src/routes/price.ts`, `getPrice`)

The embedding starts after the input-validation prefix (price.ts lines
14–71), which no claim touches; `unixTimestamp` is the already-parsed
`floor(at / 1s)`.  The upstream call is abstracted to its result
(`upstream : Option ℚ`, the `priceData.price` of a successful fetch), and
the store's reaction to the write-through `createPrice` insert is the
explicit `InsertOutcome` oracle. -/

/-- How the store reacts to the write-through `createPrice` insert:
success, a duplicate-key rejection, or a connection failure (the latter two
make `createPrice` throw). -/
inductive InsertOutcome where
  | ok
  | duplicateKey
  | connError
  deriving DecidableEq, Repr

/-- Effect of the `try { await mongoService.createPrice(...) } catch` block
on the store: a successful insert appends the row, a failed one leaves the
store unchanged (the route catches and logs the exception). -/
def tryCreatePrice (st : MongoState) (io : InsertOutcome) (p : StoredPrice) :
    MongoState :=
  match io with
  | .ok => { st with prices := st.prices ++ [p] }
  | .duplicateKey => st
  | .connError => st

/-- The JSON body of a successful `getPrice` response (`PriceResponse`). -/
structure PriceResponse where
  price : ℚ
  source : String
  timestamp : String
  token : String
  network : String
  deriving DecidableEq, Repr

/-- Result of the `getPrice` route handler: a 200 JSON body, the 404
`Price data not found` response, or the 500 response produced by the
handler's outer `catch`. -/
inductive RouteResult where
  | success (resp : PriceResponse)
  | notFound
  | internalError
  deriving DecidableEq, Repr

/-- The resolution pipeline of `getPrice` (price.ts lines 73–168):
1. exact store lookup — on hit, respond with the stored row and its stored
   `source`;
2. upstream fetch — on success, write through (failure swallowed) and
   respond with `source = "alchemy"`;
3. interpolation — on success, write through (failure swallowed) and
   respond with `source = "interpolated"`;
4. otherwise respond 404.
Returns the response together with the store state after any write. -/
def resolvePrice (st : MongoState) (upstream : Option ℚ) (io : InsertOutcome)
    (token network timestampIso : String) (unixTimestamp : ℤ) :
    RouteResult × MongoState :=
  match findPriceByTimestamp st token network unixTimestamp with
  | .error _ => (.internalError, st)
  | .ok (some existing) =>
    (.success ⟨existing.price, existing.source, existing.date,
      existing.token, existing.network⟩, st)
  | .ok none =>
    match upstream with
    | some p =>
      let st' := tryCreatePrice st io
        ⟨strUpper token, strLower network, timestampIso, unixTimestamp, p, "alchemy"⟩
      (.success ⟨p, "alchemy", timestampIso, token, network⟩, st')
    | none =>
      match interpolatePriceDb st token network unixTimestamp with
      | some r =>
        let st' := tryCreatePrice st io
          ⟨strUpper token, strLower network, timestampIso, unixTimestamp,
            r.price, "interpolated"⟩
        (.success ⟨r.price, "interpolated", timestampIso, token, network⟩, st')
      | none => (.notFound, st)

/-! ## Cache middleware (`src/unnamed/part_009`, `cacheMiddleware`) -/

/-- The serialized cache value (`CacheData`): price, embedded source,
timestamp and the time it was cached. -/
structure CacheData where
  price : ℚ
  source : String
  timestamp : String
  cachedAt : String
  deriving DecidableEq, Repr

/-- What `redisService.get(cacheKey)` followed by `JSON.parse` yields for
the request's fingerprint: no entry, an entry that fails to parse (the
middleware logs and falls through), or a parsed `CacheData`. -/
inductive CachedValue where
  | absent
  | unparseable
  | parsed (d : CacheData)
  deriving DecidableEq, Repr

/-- The response of the price route including the middleware: either the
cache-hit body `{...parsedData, source: 'cache'}` sent by `cacheMiddleware`
(part_009 lines 22–38), or whatever the downstream `getPrice` handler
produces. -/
inductive PipelineResponse where
  | fromCache (body : CacheData)
  | fromHandler (r : RouteResult)
  deriving DecidableEq, Repr

/-- The composed route `priceCacheMiddleware → getPrice`: a fresh parseable
cache entry is returned immediately with its `source` overridden to
`"cache"`; otherwise (miss or corrupted entry) the request falls through to
the resolver pipeline. -/
def pricePipeline (cached : CachedValue) (st : MongoState) (upstream : Option ℚ)
    (io : InsertOutcome) (token network timestampIso : String) (ts : ℤ) :
    PipelineResponse :=
  match cached with
  | .parsed d => .fromCache { d with source := "cache" }
  | .absent => .fromHandler (resolvePrice st upstream io token network timestampIso ts).1
  | .unparseable => .fromHandler (resolvePrice st upstream io token network timestampIso ts).1

/-! ## Backfill worker batch size (`calculateOptimalBatchSize`,
second half of `src/backend/src/middleware/validation.ts`, and its call
site in the worker `src/unnamed/part_006` line 67) -/

/-- JS `Math.ceil(a / b)` on non-negative integers. -/
def natCeilDiv (a b : ℕ) : ℕ := (a + b - 1) / b

/-- `calculateOptimalBatchSize(totalDays, maxBatchSize, minBatchSize)`
(validation.ts lines 279–289): `totalDays` itself when at most
`minBatchSize`; `ceil(totalDays / 2)` when at most `maxBatchSize`;
otherwise `ceil(totalDays / 10)` clamped into
`[minBatchSize, maxBatchSize]`. -/
def calculateOptimalBatchSize (totalDays maxBatchSize minBatchSize : ℕ) : ℕ :=
  if totalDays ≤ minBatchSize then totalDays
  else if totalDays ≤ maxBatchSize then natCeilDiv totalDays 2
  else max minBatchSize (min maxBatchSize (natCeilDiv totalDays 10))

/-- The worker's call site (part_006 line 67):
`calculateOptimalBatchSize(missingTimestamps.length)` with the default
`maxBatchSize = 100`, `minBatchSize = 10`. -/
def workerBatchSize (missingCount : ℕ) : ℕ :=
  calculateOptimalBatchSize missingCount 100 10

/-- The batch size as the specification words it:
`clamp(10, ceil(total/10), 100)`.  Stated from the spec for comparison with
the source's `calculateOptimalBatchSize`. -/
def specBatchSize (total : ℕ) : ℕ :=
  max 10 (min 100 (natCeilDiv total 10))

/-! ## Daily timestamp grid (`generateDailyTimestamps`, second half of
`src/backend/src/middleware/validation.ts`, lines 257–274)

Timestamps are unix seconds (`ℕ`); `setUTCHours(0,0,0,0)` floors to the
enclosing UTC day (86 400-second slots — JS `Date` time has no leap
seconds), and `setUTCDate(getUTCDate() + 1)` advances exactly one day. -/

/-- The `while (currentDate <= end)` loop of `generateDailyTimestamps`. -/
def dailyFrom (current endTs : ℕ) : List ℕ :=
  if current ≤ endTs then current :: dailyFrom (current + 86400) endTs else []
termination_by endTs + 1 - current
decreasing_by omega

/-- `generateDailyTimestamps(startDate, endDate)`: normalise both bounds to
UTC midnight, then emit one timestamp per day while the cursor has not
passed the end. -/
def generateDailyTimestamps (startDate endDate : ℕ) : List ℕ :=
  dailyFrom (startDate / 86400 * 86400) (endDate / 86400 * 86400)

/-! ## Job registry (`src/backend/src/routes/index.ts`, schedule
controller)

The in-memory `scheduledJobs: Map<string, JobData>` is modelled as an
association list in insertion order (JS `Map` iterates in insertion
order and `set` of a fresh key appends). -/

/-- `JobData` — a schedule record. -/
structure JobData where
  id : String
  token : String
  network : String
  interval : String
  enabled : Bool
  createdAt : String
  lastRun : Option String
  nextRun : String
  deriving DecidableEq, Repr

/-- `findExistingJob(token, network)` (index.ts lines 410–418): first job
whose `token` and `network` match case-insensitively. -/
def findExistingJob : List (String × JobData) → String → String → Option String
  | [], _, _ => none
  | (jobId, job) :: rest, token, network =>
    if strLower job.token = strLower token ∧ strLower job.network = strLower network
    then some jobId
    else findExistingJob rest token network

/-- Outcome of `scheduleJob` relevant to the registry: the 409
`Job already exists` response carrying `existingJobId`, or a success
carrying the fresh id. -/
inductive ScheduleResult where
  | alreadyExists (existingJobId : String)
  | scheduled (jobId : String)
  deriving DecidableEq, Repr

/-- `scheduleJob` (index.ts lines 125–203) restricted to the registry
logic: duplicate check first (responding 409 with the existing id and
leaving the registry untouched), otherwise store the new record.  The
fresh UUID, the timestamps and the computed `nextRun` are passed in as
parameters; the subsequent best-effort BullMQ enqueue does not affect the
registry or the response kind. -/
def scheduleJob (jobs : List (String × JobData)) (token network interval : String)
    (enabled : Bool) (newId now nextRun : String) :
    ScheduleResult × List (String × JobData) :=
  match findExistingJob jobs token network with
  | some existingJobId => (.alreadyExists existingJobId, jobs)
  | none =>
    (.scheduled newId,
      jobs ++ [(newId, ⟨newId, token, network, interval, enabled, now, none, nextRun⟩)])

/-! ## Concrete fixtures for the end-to-end scenarios -/

/-- The store of the interpolation scenario: exactly the two points
`(ETH, ethereum, 2024-01-01T00:00:00Z, 2000.00)` and
`(ETH, ethereum, 2024-01-03T00:00:00Z, 2200.00)` (unix timestamps
1704067200 and 1704240000), with the store connected. -/
def ethStore : MongoState :=
  ⟨true,
    [⟨"ETH", "ethereum", "2024-01-01T00:00:00Z", 1704067200, 2000, "alchemy"⟩,
     ⟨"ETH", "ethereum", "2024-01-03T00:00:00Z", 1704240000, 2200, "alchemy"⟩]⟩

/-- A registry holding one schedule record for `(USDC, ethereum)`. -/
def usdcRegistry : List (String × JobData) :=
  [("job-1",
    ⟨"job-1", "USDC", "ethereum", "0 0 1 1 1", true,
      "2024-01-01T00:00:00Z", none, "2024-01-01T00:05:00Z"⟩)]

/-! # Theorems settling the claims -/

/-! ## C2 — interpolation nullity -/

/-- C2: `interpolatePrice` returns `null` exactly when the straddling query
yields no record before the target, or no record after it, or the two
records share the same unix timestamp; in all other cases it returns a
result. -/
theorem interpolatePrice_none_iff (b a : Option PricePoint) (q : ℤ) :
    interpolatePrice b a q = none ↔
      b = none ∨ a = none ∨
        (∃ pb pa, b = some pb ∧ a = some pa ∧ pb.timestamp = pa.timestamp) := by
  cases b with
  | none => cases a <;> simp [interpolatePrice]
  | some pb =>
    cases a with
    | none => simp [interpolatePrice]
    | some pa =>
      by_cases h : pb.timestamp = pa.timestamp <;>
        simp [interpolatePrice, h]

/-! ## C8 — confidence is clamped into [0, 1] -/

/-- The final `Math.min(1, Math.max(0, ·))` clamp lands in `[0, 1]`. -/
lemma clamp01_mem_unitInterval (x : ℚ) :
    0 ≤ ratMin 1 (ratMax 0 x) ∧ ratMin 1 (ratMax 0 x) ≤ 1 := by
  unfold ratMin ratMax
  split_ifs <;> constructor <;> linarith

/-- The clamp `Math.min(1, Math.max(0, x))` on a non-`NaN` double is a
finite value in `[0, 1]`. -/
lemma clamp_shape (x : JsNum) (hx : x ≠ .nan) :
    ∃ q : ℚ, JsNum.jsMin (.finite 1) (JsNum.jsMax (.finite 0) x) = .finite q ∧
      0 ≤ q ∧ q ≤ 1 := by
  cases x with
  | finite a => exact ⟨ratMin 1 (ratMax 0 a), rfl, clamp01_mem_unitInterval a⟩
  | posInf => exact ⟨1, rfl, by norm_num⟩
  | negInf => refine ⟨ratMin 1 0, rfl, ?_, ?_⟩ <;> (unfold ratMin; norm_num)
  | nan => exact absurd rfl hx

/-- The time factor is always finite (its divisor is the constant
`7 * 24 * 60 * 60`). -/
lemma timeFactor_finite (G : ℚ) :
    ∃ t : ℚ, JsNum.jsMax (.finite 0) (JsNum.sub (.finite 1)
      ((JsNum.finite G).div (.finite (7 * 24 * 60 * 60)))) = .finite t := by
  refine ⟨ratMax 0 (1 + -(G / (7 * 24 * 60 * 60))), ?_⟩
  norm_num [JsNum.div, JsNum.sub, JsNum.add, JsNum.neg, JsNum.jsMax]

/-- The stability factor is finite unless both prices are zero: a zero
`beforePrice` with a nonzero `afterPrice` sends `priceChange` to
`+Infinity`, which the `Math.max(0, 1 − ·/0.5)` step turns into `0`. -/
lemma stabilityFactor_finite (bp ap : ℚ) (hp : ¬(bp = 0 ∧ ap = 0)) :
    ∃ s : ℚ, JsNum.jsMax (.finite 0) (JsNum.sub (.finite 1)
      (((JsNum.abs (JsNum.sub (.finite ap) (.finite bp))).div
          (.finite bp)).div (.finite 0.5))) = .finite s := by
  by_cases hbp : bp = 0
  · subst hbp
    have hap : ap ≠ 0 := fun h => hp ⟨rfl, h⟩
    have habs : 0 < ratAbs ap := by
      unfold ratAbs
      split_ifs with h
      · linarith
      · exact lt_of_le_of_ne (not_lt.mp h) (Ne.symm hap)
    refine ⟨0, ?_⟩
    norm_num [JsNum.abs, JsNum.div, JsNum.sub, JsNum.add, JsNum.neg,
      JsNum.jsMax, habs]
  · refine ⟨ratMax 0 (1 + -(ratAbs (ap + -bp) / bp / 0.5)), ?_⟩
    norm_num [JsNum.abs, JsNum.div, JsNum.sub, JsNum.add, JsNum.neg,
      JsNum.jsMax, hbp]

/-- The position factor is finite or `-Infinity` (never `NaN`) as long as
the two gaps do not sum to zero, i.e. the data points' timestamps differ:
`max(beforeGap, afterGap) = 0` then forces `min(beforeGap, afterGap) < 0`,
and a negative value over `+0` is `-Infinity`. -/
lemma positionFactor_shape (bg ag : ℚ) (hsum : bg + ag ≠ 0) :
    (∃ p : ℚ, (JsNum.jsMin (.finite bg) (.finite ag)).div
        (JsNum.jsMax (.finite bg) (.finite ag)) = .finite p) ∨
      (JsNum.jsMin (.finite bg) (.finite ag)).div
        (JsNum.jsMax (.finite bg) (.finite ag)) = .negInf := by
  have hred : (JsNum.jsMin (.finite bg) (.finite ag)).div
      (JsNum.jsMax (.finite bg) (.finite ag)) =
        (JsNum.finite (ratMin bg ag)).div (.finite (ratMax bg ag)) := rfl
  by_cases hm : ratMax bg ag = 0
  · right
    have hmin : ratMin bg ag < 0 := by
      unfold ratMax at hm
      unfold ratMin
      split_ifs at hm ⊢ with h
      · rcases lt_or_eq_of_le (hm ▸ h) with h1 | h1
        · exact h1
        · exact absurd (by rw [h1, hm]; norm_num) hsum
      · have h2 : ag < bg := lt_of_not_le h
        rw [hm] at h2
        exact h2
    rw [hred]
    simp only [JsNum.div]
    rw [if_pos hm, if_neg (asymm hmin), if_pos hmin]
  · left
    refine ⟨ratMin bg ag / ratMax bg ag, ?_⟩
    rw [hred]
    simp only [JsNum.div]
    rw [if_neg hm]

/-- C8 counterexample: at `beforePrice = afterPrice = 0` (admitted by the
price schema's `min: 0`) the source computes `priceChange = 0/0 = NaN`,
and `Math.min(1, Math.max(0, NaN))` is `NaN` — the confidence is not a
value in `[0, 1]` (indeed not a finite value at all).  The same happens in
the position factor when both data points and the query share one
timestamp (an input the engine itself never passes, thanks to the
`ts1 === ts2` guard). -/
theorem jsInterpolationConfidence_nan_at_zero_prices :
    jsInterpolationConfidence 1704153600 1704067200 1704240000 0 0 = .nan ∧
      (¬∃ q : ℚ, jsInterpolationConfidence 1704153600 1704067200 1704240000 0 0 =
        .finite q ∧ 0 ≤ q ∧ q ≤ 1) ∧
      jsInterpolationConfidence 1704067200 1704067200 1704067200 2000 2200 = .nan := by
  refine ⟨?_, ?_, ?_⟩
  · norm_num [jsInterpolationConfidence, JsNum.div, JsNum.sub, JsNum.add, JsNum.neg,
      JsNum.mul, JsNum.abs, JsNum.jsMax, JsNum.jsMin, ratAbs, ratMax, ratMin]
  · rintro ⟨q, hq, -⟩
    rw [show jsInterpolationConfidence 1704153600 1704067200 1704240000 0 0 = .nan by
      norm_num [jsInterpolationConfidence, JsNum.div, JsNum.sub, JsNum.add, JsNum.neg,
        JsNum.mul, JsNum.abs, JsNum.jsMax, JsNum.jsMin, ratAbs, ratMax, ratMin]] at hq
    exact JsNum.noConfusion hq
  · norm_num [jsInterpolationConfidence, JsNum.div, JsNum.sub, JsNum.add, JsNum.neg,
      JsNum.mul, JsNum.abs, JsNum.jsMax, JsNum.jsMin, ratAbs, ratMax, ratMin]

/-- C8 amended: for every pair of price points whose timestamps differ (the
`ts1 === ts2` guard in `interpolatePrice` ensures the computation is only
invoked on such pairs) and whose prices are not both zero, the confidence
is a finite value in `[0, 1]`; with both prices zero the computation
produces `NaN` instead. -/
theorem jsInterpolationConfidence_mem_unitInterval
    (queryTs beforeTs afterTs : ℤ) (beforePrice afterPrice : ℚ)
    (hts : beforeTs ≠ afterTs) (hp : ¬(beforePrice = 0 ∧ afterPrice = 0)) :
    ∃ q : ℚ,
      jsInterpolationConfidence queryTs beforeTs afterTs beforePrice afterPrice =
          .finite q ∧
        0 ≤ q ∧ q ≤ 1 := by
  simp only [jsInterpolationConfidence]
  refine clamp_shape _ ?_
  obtain ⟨tq, ht⟩ := timeFactor_finite ((afterTs - beforeTs : ℤ) : ℚ)
  obtain ⟨sq, hs⟩ := stabilityFactor_finite beforePrice afterPrice hp
  have hsum : ((queryTs - beforeTs : ℤ) : ℚ) + ((afterTs - queryTs : ℤ) : ℚ) ≠ 0 := by
    have hne : ((afterTs - beforeTs : ℤ) : ℚ) ≠ 0 :=
      Int.cast_ne_zero.mpr (sub_ne_zero.mpr (Ne.symm hts))
    intro hc
    apply hne
    push_cast at hc ⊢
    linarith
  rcases positionFactor_shape ((queryTs - beforeTs : ℤ) : ℚ)
      ((afterTs - queryTs : ℤ) : ℚ) hsum with ⟨pq, hpv⟩ | hpv <;>
    rw [ht, hs, hpv] <;>
    norm_num [JsNum.mul, JsNum.add] <;>
    exact fun h => JsNum.noConfusion h

/-- Witness for C8 amended: the scenario pair (timestamps 1704067200 and
1704240000, prices 2000 and 2200) yields a finite confidence in `[0, 1]`. -/
theorem jsInterpolationConfidence_mem_unitInterval_witness :
    ∃ q : ℚ,
      jsInterpolationConfidence 1704153600 1704067200 1704240000 2000 2200 =
          .finite q ∧
        0 ≤ q ∧ q ≤ 1 :=
  jsInterpolationConfidence_mem_unitInterval 1704153600 1704067200 1704240000
    2000 2200 (by decide) (by simp)

/-! ## C5 — degraded-mode reads -/

/-- C5 (code bug): with the store disconnected, the exact point lookup and
the straddling-pair lookup return `null` / `[null, null]` without error,
but the range history fetch — contrary to the degraded-mode contract —
propagates the raw query error because it lacks the `isReady()` guard and
`try/catch` of its sibling read operations. -/
theorem getPriceHistory_errors_when_disconnected :
    (findPriceByTimestamp ⟨false, []⟩ "ETH" "ethereum" 1704067200 = .ok none) ∧
      (findClosestPricesService ⟨false, []⟩ "ETH" "ethereum" 1704067200 = .ok (none, none)) ∧
      (getPriceHistory ⟨false, []⟩ "ETH" "ethereum" 1704067200 1704240000 =
        .error .notConnected) := by
  refine ⟨rfl, rfl, ?_⟩
  rfl

/-! ## C6 — cache hits short-circuit and are re-sourced as "cache" -/

/-- C6: when the cache holds a fresh parseable entry for the fingerprint,
the response is the cached record with `source` overridden to `"cache"`
(whatever source was embedded), and it is independent of the store, the
upstream and the write-through outcome — the pipeline short-circuits before
any store or upstream access. -/
theorem pricePipeline_cache_hit (d : CacheData) (st st' : MongoState)
    (u u' : Option ℚ) (io io' : InsertOutcome)
    (token network timestampIso : String) (ts : ℤ) :
    pricePipeline (.parsed d) st u io token network timestampIso ts =
        .fromCache { d with source := "cache" } ∧
      pricePipeline (.parsed d) st u io token network timestampIso ts =
        pricePipeline (.parsed d) st' u' io' token network timestampIso ts :=
  ⟨rfl, rfl⟩

/-! ## C7 — store-write failures never surface -/

/-- C7: when the resolver obtains a price from the upstream fetch or from
interpolation, the response is the resolved price regardless of whether the
write-through insert succeeds, hits a duplicate key or a connection error;
more generally the response component of `resolvePrice` never depends on
the insert outcome. -/
theorem resolvePrice_ignores_insert_outcome (st : MongoState)
    (token network timestampIso : String) (ts : ℤ) (p : ℚ) (io : InsertOutcome)
    (h : findPriceByTimestamp st token network ts = .ok none) :
    (resolvePrice st (some p) io token network timestampIso ts).1 =
        .success ⟨p, "alchemy", timestampIso, token, network⟩ ∧
      (∀ r, interpolatePriceDb st token network ts = some r →
        (resolvePrice st none io token network timestampIso ts).1 =
          .success ⟨r.price, "interpolated", timestampIso, token, network⟩) ∧
      (∀ (u : Option ℚ) (io₁ io₂ : InsertOutcome),
        (resolvePrice st u io₁ token network timestampIso ts).1 =
          (resolvePrice st u io₂ token network timestampIso ts).1) := by
  refine ⟨?_, ?_, ?_⟩
  · simp [resolvePrice, h]
  · intro r hr
    simp [resolvePrice, h, hr]
  · intro u io₁ io₂
    cases hfp : findPriceByTimestamp st token network ts with
    | error e => simp [resolvePrice, hfp]
    | ok v =>
      cases v with
      | some ex => simp [resolvePrice, hfp]
      | none =>
        cases u with
        | some p' => simp [resolvePrice, hfp]
        | none =>
          cases hint : interpolatePriceDb st token network ts with
          | some r => simp [resolvePrice, hfp, hint]
          | none => simp [resolvePrice, hfp, hint]

/-- Witness for C7: in the two-point ETH store (which has no row at
`2024-01-02T00:00:00Z`), an upstream price of 99 is returned even though
the write-through insert fails with a duplicate-key error. -/
theorem resolvePrice_ignores_insert_outcome_witness :
    (resolvePrice ethStore (some 99) .duplicateKey "ETH" "ethereum"
        "2024-01-02T00:00:00Z" 1704153600).1 =
      .success ⟨99, "alchemy", "2024-01-02T00:00:00Z", "ETH", "ethereum"⟩ :=
  (resolvePrice_ignores_insert_outcome ethStore "ETH" "ethereum"
    "2024-01-02T00:00:00Z" 1704153600 99 .duplicateKey (by rfl)).1

/-! ## C3 — upstream error taxonomy -/

/-- C3 counterexample: an HTTP 500 response and a connection error produce
exactly the same value as an HTTP 404 — plain `null` (`none`).  The
adapter's result type has no distinct `TransientError` value, so 5xx /
connection failures are not distinguishable from "no data". -/
theorem getTokenPrice_5xx_equals_4xx :
    getTokenPrice "ETH" "ethereum" "2024-01-01T00:00:00Z" 0 0 (.httpError 500) = none ∧
      getTokenPrice "ETH" "ethereum" "2024-01-01T00:00:00Z" 0 0 .connError = none ∧
      getTokenPrice "ETH" "ethereum" "2024-01-01T00:00:00Z" 0 0 (.httpError 404) = none :=
  ⟨rfl, rfl, rfl⟩

/-- C3 amended: the adapter never throws and returns errors as values, but
every failure — HTTP 5xx, connection error, HTTP 4xx or malformed payload —
yields the same `null`; no transient-error value exists. -/
theorem getTokenPrice_failures_all_null (token network timestampIso : String)
    (nowMs requestMs : ℤ) (status : ℕ) :
    getTokenPrice token network timestampIso nowMs requestMs (.httpError status) = none ∧
      getTokenPrice token network timestampIso nowMs requestMs .connError = none ∧
      getTokenPrice token network timestampIso nowMs requestMs (.success none) = none := by
  unfold getTokenPrice fetchRealTokenPrice
  cases networkMap.lookup network <;> cases tokenMap.lookup (strUpper token) <;> simp

/-! ## C4 — backfill batch size -/

/-- C4 counterexample: for 50 missing timestamps the worker's batch size is
`ceil(50/2) = 25`, whereas `clamp(10, ceil(50/10), 100) = 10`. -/
theorem workerBatchSize_50_ne_clamp :
    workerBatchSize 50 = 25 ∧ specBatchSize 50 = 10 ∧ (25 : ℕ) ≠ 10 := by
  refine ⟨rfl, rfl, ?_⟩
  decide

/-- C4 amended: the worker's batch size equals the number of missing
timestamps itself when that number is at most 10, `ceil(total/2)` when it
is between 11 and 100, and `clamp(10, ceil(total/10), 100)` only when it
exceeds 100. -/
theorem workerBatchSize_piecewise (total : ℕ) :
    (total ≤ 10 → workerBatchSize total = total) ∧
      (10 < total → total ≤ 100 → workerBatchSize total = natCeilDiv total 2) ∧
      (100 < total → workerBatchSize total = specBatchSize total) := by
  unfold workerBatchSize calculateOptimalBatchSize specBatchSize
  refine ⟨fun h => ?_, fun h1 h2 => ?_, fun h => ?_⟩
  · rw [if_pos h]
  · rw [if_neg (by omega), if_pos h2]
  · rw [if_neg (by omega), if_neg (by omega)]

/-- Witness for C4 amended, at totals 5, 50 and 150. -/
theorem workerBatchSize_piecewise_witness :
    workerBatchSize 5 = 5 ∧ workerBatchSize 50 = natCeilDiv 50 2 ∧
      workerBatchSize 150 = specBatchSize 150 :=
  ⟨(workerBatchSize_piecewise 5).1 (by decide),
    (workerBatchSize_piecewise 50).2.1 (by decide) (by decide),
    (workerBatchSize_piecewise 150).2.2 (by decide)⟩

/-! ## C1 — the interpolation end-to-end scenario -/

/-- Evaluation of the interpolation engine on the two-point ETH store at
`2024-01-02T00:00:00Z`: price `2100`, confidence `141/175`. -/
lemma ethStore_interp :
    interpolatePriceDb ethStore "ETH" "ethereum" 1704153600 =
      some ⟨2100, 141 / 175, ⟨1704067200, 2000, 86400⟩, ⟨1704240000, 2200, 86400⟩⟩ := by
  have hpair : findClosestPricesService ethStore "ETH" "ethereum" 1704153600 =
      .ok (some ⟨"ETH", "ethereum", "2024-01-01T00:00:00Z", 1704067200, 2000, "alchemy"⟩,
        some ⟨"ETH", "ethereum", "2024-01-03T00:00:00Z", 1704240000, 2200, "alchemy"⟩) := by
    rfl
  simp only [interpolatePriceDb, hpair, Option.map_some']
  rw [interpolatePrice]
  norm_num [round2, calculateInterpolationConfidence, ratMax, ratMin, ratAbs,
    InterpolationResult.mk.injEq, InterpolationDataPoint.mk.injEq]

/-- C1 counterexample: in the two-point ETH scenario the interpolation
confidence computed by the code is `141/175 ≈ 0.8057` — because the
time-gap factor over the two-day gap is `1 − 172800/604800 = 5/7 ≈ 0.71`,
not `≈ 0.86` — which is not approximately `0.91` (it is off by more than
`0.05`). -/
theorem interpolation_scenario_confidence_not_091 :
    ((interpolatePriceDb ethStore "ETH" "ethereum" 1704153600).map
        InterpolationResult.confidence) = some (141 / 175) ∧
      ¬ ratAbs ((141 : ℚ) / 175 - 0.91) < 0.05 := by
  constructor
  · rw [ethStore_interp]; rfl
  · unfold ratAbs; norm_num

/-- C1 amended: with the store holding exactly the two points
`(ETH, ethereum, 2024-01-01, 2000.00)` / `(ETH, ethereum, 2024-01-03,
2200.00)`, no cache entry and the upstream fetch returning `null`,
resolving at `2024-01-02T00:00:00Z` responds with price `2100.00` and
source `"interpolated"`, and the interpolation confidence is
`0.4·(5/7) + 0.4·0.8 + 0.2·1 = 141/175 ≈ 0.81` (time confidence `5/7`,
stability `0.8`, position `1`). -/
theorem interpolation_scenario :
    pricePipeline .absent ethStore none .ok "ETH" "ethereum"
        "2024-01-02T00:00:00Z" 1704153600 =
      .fromHandler (.success
        ⟨2100, "interpolated", "2024-01-02T00:00:00Z", "ETH", "ethereum"⟩) ∧
      ((interpolatePriceDb ethStore "ETH" "ethereum" 1704153600).map
          fun r => (r.price, r.confidence)) = some (2100, 141 / 175) ∧
      ratAbs ((141 : ℚ) / 175 - 0.81) < 0.005 := by
  refine ⟨?_, ?_, ?_⟩
  · have hnone : findPriceByTimestamp ethStore "ETH" "ethereum" 1704153600 = .ok none := by
      rfl
    simp [pricePipeline, resolvePrice, hnone, ethStore_interp]
  · rw [ethStore_interp]; rfl
  · unfold ratAbs; norm_num

/-! ## C9 — daily grid generation -/

/-- Closed form of the `while (currentDate <= end)` loop of
`generateDailyTimestamps`: starting at `c ≤ e`, it emits
`(e − c)/86400 + 1` timestamps stepping one day at a time. -/
lemma dailyFrom_eq_range' :
    ∀ (k c e : ℕ), c ≤ e → (e - c) / 86400 = k →
      dailyFrom c e = List.range' c (k + 1) 86400 := by
  intro k
  induction k with
  | zero =>
    intro c e hce hk
    rw [dailyFrom, if_pos hce, dailyFrom, if_neg (by omega), List.range'_succ]
    rfl
  | succ k ih =>
    intro c e hce hk
    rw [dailyFrom, if_pos hce, ih (c + 86400) e (by omega) (by omega)]
    conv_rhs => rw [List.range'_succ]

/-- C9: for a start date and an end date (UTC-midnight instants with
`d0 ≤ dn`), the daily grid holds exactly `(dn − d0)/1d + 1` timestamps,
each at UTC midnight, in strictly ascending order. -/
theorem generateDailyTimestamps_grid (d0 dn : ℕ)
    (h0 : d0 % 86400 = 0) (hn : dn % 86400 = 0) (hle : d0 ≤ dn) :
    (generateDailyTimestamps d0 dn).length = (dn - d0) / 86400 + 1 ∧
      (∀ t ∈ generateDailyTimestamps d0 dn, t % 86400 = 0) ∧
      (generateDailyTimestamps d0 dn).Pairwise (· < ·) := by
  have hstart : d0 / 86400 * 86400 = d0 := by omega
  have hend : dn / 86400 * 86400 = dn := by omega
  have hclosed : generateDailyTimestamps d0 dn =
      List.range' d0 ((dn - d0) / 86400 + 1) 86400 := by
    rw [generateDailyTimestamps, hstart, hend]
    exact dailyFrom_eq_range' _ d0 dn hle rfl
  refine ⟨?_, ?_, ?_⟩
  · rw [hclosed, List.length_range']
  · intro t ht
    rw [hclosed, List.mem_range'] at ht
    obtain ⟨i, hi, rfl⟩ := ht
    omega
  · rw [hclosed]
    exact List.pairwise_lt_range' _ _ _ (by norm_num)

/-- Witness for C9: the grid from `2024-01-01` to `2024-01-03`
(1704067200 to 1704240000) has 3 UTC-midnight ascending timestamps. -/
theorem generateDailyTimestamps_grid_witness :
    (generateDailyTimestamps 1704067200 1704240000).length =
        (1704240000 - 1704067200) / 86400 + 1 ∧
      (∀ t ∈ generateDailyTimestamps 1704067200 1704240000, t % 86400 = 0) ∧
      (generateDailyTimestamps 1704067200 1704240000).Pairwise (· < ·) :=
  generateDailyTimestamps_grid 1704067200 1704240000 (by norm_num) (by norm_num)
    (by norm_num)

/-! ## C10 — duplicate schedule creation -/

/-- Soundness of `findExistingJob`: a returned id belongs to a registry
record whose token and network match the request case-insensitively. -/
lemma findExistingJob_mem :
    ∀ (jobs : List (String × JobData)) (token network existingId : String),
      findExistingJob jobs token network = some existingId →
      ∃ job, (existingId, job) ∈ jobs ∧ strLower job.token = strLower token ∧
        strLower job.network = strLower network := by
  intro jobs
  induction jobs with
  | nil =>
    intro token network existingId h
    simp [findExistingJob] at h
  | cons hd tl ih =>
    intro token network existingId h
    obtain ⟨jobId, job⟩ := hd
    simp only [findExistingJob] at h
    split_ifs at h with hmatch
    · injection h with h'
      exact ⟨job, by simp [h'], hmatch.1, hmatch.2⟩
    · obtain ⟨j, hj, h1, h2⟩ := ih token network existingId h
      exact ⟨j, by simp [hj], h1, h2⟩

/-- C10: when the registry already holds a record matching `(token,
network)` case-insensitively, a second `create` responds
`Job already exists` with the id of that existing record and leaves the
registry unchanged. -/
theorem scheduleJob_duplicate (jobs : List (String × JobData))
    (token network interval : String) (enabled : Bool)
    (newId now nextRun existingId : String)
    (h : findExistingJob jobs token network = some existingId) :
    scheduleJob jobs token network interval enabled newId now nextRun =
        (.alreadyExists existingId, jobs) ∧
      ∃ job, (existingId, job) ∈ jobs ∧ strLower job.token = strLower token ∧
        strLower job.network = strLower network :=
  ⟨by simp [scheduleJob, h], findExistingJob_mem jobs token network existingId h⟩

/-- Witness for C10: creating `("usdc", "Ethereum")` when
`("USDC", "ethereum")` already exists fails with the existing id `"job-1"`
and leaves the registry unchanged. -/
theorem scheduleJob_duplicate_witness :
    scheduleJob usdcRegistry "usdc" "Ethereum" "0 0 2 2 2" true "job-2"
        "2024-02-01T00:00:00Z" "2024-02-01T00:05:00Z" =
      (.alreadyExists "job-1", usdcRegistry) :=
  (scheduleJob_duplicate usdcRegistry "usdc" "Ethereum" "0 0 2 2 2" true
    "job-2" "2024-02-01T00:00:00Z" "2024-02-01T00:05:00Z" "job-1" (by rfl)).1

end Oracle
